import Mathlib

/-!
Verification development for the 5C dining-hall traffic simulator
(`src/main.py`).  The simulation core is embedded shallowly:

* machine floats are modelled by exact rationals (`ℚ`);
* the spherical trigonometry of `Person.get_distance` /
  `Person.move_towards_fast` is abstracted into a `Geo` record of two
  functions (no claim depends on the numeric values of the trig, only on
  comparisons of distances, which theorems constrain by hypotheses);
* Python's seeded PRNG (`random.random`, `random.gauss`,
  `random.choices`) is modelled by a deterministic stream of rational
  draw results threaded through every operation, in the source's draw
  order;
* Python exceptions are modelled with `Except`, Python's `None` day
  sentinel with `Option`.

Source line numbers refer to `src/main.py`.
-/

/-- Latitude/longitude pair, in degrees (Python lists `[lat, lon]`). -/
abbrev Loc := ℚ × ℚ

/-- Abstraction of the two floating-point geodesic routines:
`dist a b` models `Person.get_distance` called on a person at `b` with
argument location `a` (lines 669-683, spherical law of cosines times the
Earth radius), and `step cur dest d` models the position produced by
`Person.move_towards_fast` for a person at `cur` heading to `dest` by
`d` meters (lines 627-655). -/
structure Geo where
  dist : Loc → Loc → ℚ
  step : Loc → Loc → ℚ → Loc

/-- The global `random` generator: a pre-sampled stream of rational draw
results plus a cursor.  Each primitive draw consumes one stream element. -/
structure RNG where
  seq : ℕ → ℚ
  idx : ℕ

/-- One primitive draw (`random.random()` consumes exactly one). -/
def RNG.next (r : RNG) : ℚ × RNG := (r.seq r.idx, ⟨r.seq, r.idx + 1⟩)

/-- Model of `random.gauss(mu, sigma)`: an arbitrary standard draw `z`
from the stream, shifted and scaled. -/
def pyGauss (mu sigma : ℚ) (r : RNG) : ℚ × RNG :=
  let p := r.next
  (mu + sigma * p.1, p.2)

/-- Python `int()` applied to a rational: truncation toward zero
(`int(course["people"] * conversion_rate)`, line 479). -/
def pyInt (q : ℚ) : ℤ := if 0 ≤ q then ⌊q⌋ else ⌈q⌉

/-- Line 102. -/
def DAY_START_TIME : ℚ := 7 * 60

/-- Line 103. -/
def DAY_END_TIME : ℚ := 22 * 60

/-- Line 105. -/
def CONVERSION_RATE : ℚ := 2/5

/-- Line 106. -/
def DINNER_CONVERSION_RATE : ℚ := 1/2

/-- Line 108: `[west, east, south, north]` bounding box. -/
def BOUNDING_BOX : List ℚ := [-117.71845, -117.70245, 34.09391, 34.10705]

/-- One dining facility of the fixed catalog (lines 110-165): location
and the three meal windows in fractional hours. -/
structure Hall where
  location : Loc
  breakfast : ℚ × ℚ
  lunch : ℚ × ℚ
  dinner : ℚ × ℚ
deriving DecidableEq

/-- Lines 110-165, in source (insertion) order. -/
def DINING_HALLS : List (String × Hall) :=
  [ ("Hoch-Shanahan", ⟨(34.10574, -117.70980), (7, 9), (11.75, 13), (17, 19)⟩)
  , ("Malott", ⟨(34.10284, -117.71064), (7.5, 10), (11, 14), (17, 19)⟩)
  , ("Collins", ⟨(34.10160, -117.70899), (7.5, 10.5), (11, 14), (16.5, 19.5)⟩)
  , ("McConnell", ⟨(34.10291, -117.70562), (7.5, 10), (11, 13.5), (17, 19.5)⟩)
  , ("Frary", ⟨(34.10040, -117.71073), (7.5, 10), (11, 13.5), (17, 19.5)⟩)
  , ("Frank", ⟨(34.09614, -117.71145), (7.5, 9.5), (10.5, 13.5), (17, 19.5)⟩) ]

/-- Lines 311-315: `loc[1]` (longitude) against box 0/1, `loc[0]`
(latitude) against box 2/3. -/
def in_bounds (loc : Loc) : Bool :=
  decide (BOUNDING_BOX.getD 0 0 ≤ loc.2) && decide (loc.2 ≤ BOUNDING_BOX.getD 1 0) &&
  decide (BOUNDING_BOX.getD 2 0 ≤ loc.1) && decide (loc.1 ≤ BOUNDING_BOX.getD 3 0)

/-- Lines 323-333: convert the minute clock to fractional hours and test
the three windows, both endpoints included. -/
def is_open (current_time : ℚ) (h : Hall) : Bool :=
  let t := current_time / 60
  (decide (h.breakfast.1 ≤ t) && decide (t ≤ h.breakfast.2)) ||
  (decide (h.lunch.1 ≤ t) && decide (t ≤ h.lunch.2)) ||
  (decide (h.dinner.1 ≤ t) && decide (t ≤ h.dinner.2))

/-- Lookup `DINING_HALLS[name]`.  In the source every name fed to this
lookup comes from the catalog itself (a missing key would be a Python
`KeyError`, unreachable in the simulation), so a default hall stands in
for the impossible miss. -/
def getHall (name : String) : Hall :=
  (((DINING_HALLS.find? (fun kv => decide (kv.1 = name))).map (fun kv => kv.2)).getD
    ⟨(0, 0), (0, 0), (0, 0), (0, 0)⟩)

/-- Names of the currently open facilities, in catalog order
(line 462). -/
def openHallNames (m : ℚ) : List String :=
  (DINING_HALLS.filter (fun kv => is_open m kv.2)).map (fun kv => kv.1)

/-- Indices (ascending) of the list entries satisfying `p`: the
`to_remove` lists the source builds while enumerating a collection
(lines 509-521, 532-537, 551-556). -/
def idxsWhere {α : Type} (p : α → Bool) : List α → List ℕ
  | [] => []
  | x :: xs => if p x then 0 :: (idxsWhere p xs).map (· + 1) else (idxsWhere p xs).map (· + 1)

/-- The source's deferred-removal idiom: `for index in to_remove:
l.pop(index - removed); removed += 1` (lines 524-527, 540-547,
558-562). -/
def popLoop {α : Type} : List α → List ℕ → ℕ → List α
  | l, [], _ => l
  | l, i :: is, removed => popLoop (l.eraseIdx (i - removed)) is (removed + 1)

theorem popLoop_shift {α : Type} (is : List ℕ) :
    ∀ (l : List α) (s r : ℕ), popLoop l (is.map (· + r)) (s + r) = popLoop l is s := by
  induction is with
  | nil => intro l s r; rfl
  | cons i is ih =>
    intro l s r
    show popLoop (l.eraseIdx (i + r - (s + r))) (is.map (· + r)) (s + r + 1) =
      popLoop (l.eraseIdx (i - s)) is (s + 1)
    rw [Nat.add_sub_add_right]
    have h1 : s + r + 1 = (s + 1) + r := by omega
    rw [h1, ih]

/-- Admissibility of an index list for `popLoop` relative to the running
`removed` counter: the k-th processed index is at least the counter. -/
def Adm : ℕ → List ℕ → Prop
  | _, [] => True
  | k, i :: is => k ≤ i ∧ Adm (k + 1) is

theorem adm_map_succ (is : List ℕ) : ∀ k, Adm k is → Adm (k + 1) (is.map (· + 1)) := by
  induction is with
  | nil => intro k _; trivial
  | cons i is ih =>
    intro k h
    exact ⟨Nat.add_le_add_right h.1 1, ih (k + 1) h.2⟩

theorem adm_weaken (is : List ℕ) : ∀ k, Adm (k + 1) is → Adm k is := by
  induction is with
  | nil => intro k _; trivial
  | cons i is ih =>
    intro k h
    exact ⟨Nat.le_of_succ_le h.1, ih (k + 1) h.2⟩

theorem adm_idxsWhere {α : Type} (p : α → Bool) (l : List α) : Adm 0 (idxsWhere p l) := by
  induction l with
  | nil => trivial
  | cons x xs ih =>
    by_cases hp : p x
    · simp only [idxsWhere, hp, if_true]
      exact ⟨Nat.zero_le 0, adm_map_succ _ 0 ih⟩
    · simp only [idxsWhere, hp, if_false, Bool.false_eq_true]
      exact adm_weaken _ 0 (adm_map_succ _ 0 ih)

theorem popLoop_cons {α : Type} (is : List ℕ) :
    ∀ (l : List α) (x : α) (k : ℕ), Adm k is →
      popLoop (x :: l) (is.map (· + 1)) k = x :: popLoop l is k := by
  induction is with
  | nil => intro l x k _; rfl
  | cons i is ih =>
    intro l x k hadm
    obtain ⟨hk, ha⟩ := hadm
    show popLoop ((x :: l).eraseIdx (i + 1 - k)) (is.map (· + 1)) (k + 1) =
      x :: popLoop (l.eraseIdx (i - k)) is (k + 1)
    have h1 : i + 1 - k = (i - k) + 1 := by omega
    rw [h1]
    have h2 : (x :: l).eraseIdx ((i - k) + 1) = x :: l.eraseIdx (i - k) := rfl
    rw [h2, ih _ x (k + 1) ha]

/-- Popping the collected indices with the running offset removes
exactly the marked entries, preserving the order of the others. -/
theorem popLoop_idxsWhere {α : Type} (p : α → Bool) (l : List α) :
    popLoop l (idxsWhere p l) 0 = l.filter (fun x => !(p x)) := by
  induction l with
  | nil => rfl
  | cons x xs ih =>
    by_cases hp : p x
    · simp only [idxsWhere, hp, if_true]
      show popLoop ((x :: xs).eraseIdx 0) ((idxsWhere p xs).map (· + 1)) 1 = _
      have h0 : (x :: xs).eraseIdx 0 = xs := rfl
      have h1 : (1 : ℕ) = 0 + 1 := rfl
      rw [h0, h1, popLoop_shift, ih]
      simp [hp]
    · simp only [idxsWhere, hp, if_false, Bool.false_eq_true]
      rw [popLoop_cons _ _ _ _ (adm_idxsWhere p xs), ih]
      simp [hp]

theorem idxsWhere_length {α : Type} (p : α → Bool) (l : List α) :
    (idxsWhere p l).length = l.countP p := by
  induction l with
  | nil => rfl
  | cons x xs ih =>
    by_cases hp : p x <;> simp [idxsWhere, hp, List.countP_cons, ih]

/-- Running cumulative sums, as built inside `random.choices`. -/
def cumSum : List ℚ → ℚ → List ℚ
  | [], _ => []
  | w :: ws, s => (s + w) :: cumSum ws (s + w)

/-- The `while lo < hi` binary search of `bisect.bisect_right`. -/
def bisectRight (a : List ℚ) (x : ℚ) (lo hi : ℕ) : ℕ :=
  if h : lo < hi then
    let mid := (lo + hi) / 2
    if x < a.getD mid 0 then bisectRight a x lo mid else bisectRight a x (mid + 1) hi
  else lo
termination_by hi - lo
decreasing_by
  · omega
  · omega

/-- Model of CPython's `random.choices(population, weights=ws, k=1)[0]`:
cumulative weights, a `ValueError` when their total is not positive,
otherwise one uniform draw placed by `bisect_right` over
`cum_weights[0:n-1]`. -/
def pyChoices {α : Type} (pop : List α) (ws : List ℚ) (r : RNG) : Except String (α × RNG) :=
  let cum := cumSum ws 0
  let total := cum.getLastD 0
  if total ≤ 0 then .error "Total of weights must be greater than zero"
  else
    let p := r.next
    let i := bisectRight cum (p.1 * total) 0 (pop.length - 1)
    match pop[i]? with
    | some x => .ok (x, p.2)
    | none => .error "IndexError"

/-- One simulated agent (lines 618-625).  Python compares `Person`
objects by identity; every spawned person is a fresh object, so the
`list.remove(person)` in the movement loop always removes precisely the
element under the loop cursor.  The embedding therefore removes by
cursor index and needs no separate identity field. -/
structure Person where
  loc : Loc
  speed : ℚ
  destination : Option String
deriving DecidableEq

/-- Lines 669-683 (the trigonometry lives in `Geo.dist`): distance from
the argument location to the person. -/
def Person.get_distance (geo : Geo) (p : Person) (loc : Loc) : ℚ :=
  geo.dist loc p.loc

/-- Lines 657-667. -/
def Person.in_dining_hall (geo : Geo) (p : Person) (h : Hall) : Bool :=
  decide (p.get_distance geo h.location ≤ 100)

/-- Lines 686-694: weighted draw over the open halls, weights = current
great-circle distances (an empty `choices` returns with the destination
untouched). -/
def Person.choose_dest (geo : Geo) (p : Person) (choices : List String) (r : RNG) :
    Except String (Person × RNG) :=
  if choices.isEmpty then .ok (p, r)
  else
    let ws := choices.map (fun dh => p.get_distance geo (getHall dh).location)
    match pyChoices choices ws r with
    | .error e => .error e
    | .ok (d, r1) => .ok ({ p with destination := some d }, r1)

/-- Line 506: `person.move_towards_fast(time_interval * person.speed)`;
the geodesic step itself is `Geo.step`. -/
def movePerson (geo : Geo) (ti : ℕ) (p : Person) : Person :=
  match p.destination with
  | some d => { p with loc := geo.step p.loc (getHall d).location ((ti : ℚ) * p.speed) }
  | none => p

/-- First catalog hall (in fixed source order, lines 511-521) whose
distance to the person is at most 100 meters. -/
def firstMatch (geo : Geo) (p : Person) : Option ℕ :=
  DINING_HALLS.findIdx? (fun kv => p.in_dining_hall geo kv.2)

/-- A timing record of a course (schedule input, §6 of the pipeline in
`main`, lines 728-779).  `days` are weekday name strings, times are
`"HH:MM:SS"` strings. -/
structure Timing where
  days : List String
  start_time : String
  end_time : String
  school : String
  building : String
deriving DecidableEq

/-- A course record: only the fields the simulation core reads. -/
structure Course where
  seats_taken : ℤ
  timing : List Timing
deriving DecidableEq

/-- One spawn event stored in `end_times` (lines 775-779).  The source
also carries the raw `timing` record in the dict, but nothing in the
simulation reads it, so the embedding keeps the two consumed fields. -/
structure Event where
  location_string : String
  people : ℤ
deriving DecidableEq

/-- Python's `str.split(sep)` for a one-character separator, over the
character list: always returns at least one (possibly empty) part. -/
def pySplitCols (sep : Char) : List Char → List (List Char)
  | [] => [[]]
  | c :: cs =>
    let rest := pySplitCols sep cs
    if c = sep then [] :: rest
    else
      match rest with
      | r :: rs => (c :: r) :: rs
      | [] => [[c]]

/-- Digit accumulator for `pyParseNat`. -/
def pyDigitsAux : List Char → ℕ → Option ℕ
  | [], acc => some acc
  | c :: cs, acc =>
    if c.isDigit then pyDigitsAux cs (acc * 10 + (c.toNat - 48)) else none

/-- Python `int(s)` on the plain digit strings that occur in `HH:MM:SS`
fields; anything else is a `ValueError` (`none`). -/
def pyParseNat (cs : List Char) : Option ℕ :=
  if cs.isEmpty then none else pyDigitsAux cs 0

/-- Lines 317-321: `int(t.split(":")[0]) * 60 + int(t.split(":")[1])`.
A malformed string (`int` raising `ValueError`, or a missing part
raising `IndexError`) is a fatal error at build time, modelled as
`none`. -/
def time_to_minutes (t : String) : Option ℕ :=
  match pySplitCols ':' t.data with
  | c0 :: c1 :: _ =>
    match pyParseNat c0, pyParseNat c1 with
    | some h, some m => some (h * 60 + m)
    | _, _ => none
  | _ => none

/-- Python string `<` (code-point lexicographic). -/
def pyStrLt : List Char → List Char → Bool
  | [], [] => false
  | [], _ :: _ => true
  | _ :: _, [] => false
  | a :: as, b :: bs =>
    if a.toNat < b.toNat then true
    else if b.toNat < a.toNat then false
    else pyStrLt as bs

/-- Python string `<=`. -/
def pyStrLe (a b : List Char) : Bool := !pyStrLt b a

/-- Stable insertion into a sorted list: an element goes before the
first entry it compares `<=` to, so earlier-encountered elements stay
first among ties (Python's sort is stable). -/
def pyInsert {α : Type} (le : α → α → Bool) (x : α) : List α → List α
  | [] => [x]
  | y :: ys => if le x y then x :: y :: ys else y :: pyInsert le x ys

/-- Stable sort by `le` (insertion sort, equivalent to the stable
`list.sort`). -/
def pySort {α : Type} (le : α → α → Bool) : List α → List α
  | [] => []
  | x :: xs => pyInsert le x (pySort le xs)

/-- Append `v` to the bucket of `k` in an insertion-ordered association
list (the Python `dict` idiom `if k not in d: d[k] = []` then
`d[k].append(v)`). -/
def appendAssoc {K V : Type} [DecidableEq K] (m : List (K × List V)) (k : K) (v : V) :
    List (K × List V) :=
  if m.any (fun kv => decide (kv.1 = k)) then
    m.map (fun kv => if kv.1 = k then (kv.1, kv.2 ++ [v]) else kv)
  else m ++ [(k, [v])]

/-- Lines 726-736: group (course, timing) pairs by building. -/
def scheduleByClassroom (courses : List Course) : List (String × List (Course × Timing)) :=
  courses.foldl
    (fun acc c => c.timing.foldl (fun acc2 t => appendAssoc acc2 t.building (c, t)) acc) []

/-- Inner step of lines 747-756: file one entry under `day`/`classroom`,
creating the day key (beyond the five prefilled weekdays) on demand. -/
def addToDay (m : List (String × List (String × List (Course × Timing))))
    (day classroom : String) (e : Course × Timing) :
    List (String × List (String × List (Course × Timing))) :=
  let m1 := if m.any (fun kv => decide (kv.1 = day)) then m else m ++ [(day, [])]
  m1.map (fun kv => if kv.1 = day then (kv.1, appendAssoc kv.2 classroom e) else kv)

/-- Lines 738-756: per-day, per-classroom schedule, starting from the
five prefilled weekday keys. -/
def scheduleByDay (courses : List Course) :
    List (String × List (String × List (Course × Timing))) :=
  let base := [("Monday", []), ("Tuesday", []), ("Wednesday", []), ("Thursday", []),
    ("Friday", [])]
  (scheduleByClassroom courses).foldl
    (fun acc kv => kv.2.foldl
      (fun acc2 e => e.2.days.foldl (fun acc3 day => addToDay acc3 day kv.1 e) acc2) acc)
    base

/-- Lines 758-761: sort every classroom's list by the `end_time` string
(stable, like Python's `list.sort`). -/
def sortScheduleByDay (m : List (String × List (String × List (Course × Timing)))) :
    List (String × List (String × List (Course × Timing))) :=
  m.map (fun kv => (kv.1, kv.2.map (fun ckv =>
    (ckv.1, pySort (fun a b => pyStrLe a.2.end_time.data b.2.end_time.data) ckv.2))))

/-- The `end_times` mapping: minute-of-day to spawn events. -/
abbrev EndTimes := List (ℕ × List Event)

/-- Lines 763-779: fold the day-sorted schedule into ONE dict keyed only
by end minute.  Note the source iterates the weekday buckets but the
resulting dict has no weekday dimension.  A malformed end time aborts
the build (`none`). -/
def buildEndTimes (courses : List Course) : Option EndTimes :=
  (sortScheduleByDay (scheduleByDay courses)).foldl
    (fun acc kv => kv.2.foldl
      (fun acc2 ckv => ckv.2.foldl
        (fun acc3 e =>
          match acc3, time_to_minutes e.2.end_time with
          | some m, some t =>
            some (appendAssoc m t
              ⟨e.2.school ++ "-" ++ e.2.building, e.1.seats_taken⟩)
          | _, _ => none)
        acc2) acc)
    (some [])

/-- The parsed command-line configuration (lines 696-708).  `--speed`
defaults to the literal `0.8` even though provided values are parsed as
integers, hence a rational field. -/
structure Args where
  days : List Char
  time_interval : ℕ
  eating_time : ℕ
  line_time : ℕ
  speed : ℚ

/-- Dinner switch of the spawning step (lines 473-476): the dinner rate
applies from 17:00 on, otherwise the default rate. -/
def spawnRate (minute : ℚ) : ℚ :=
  if minute ≥ 17 * 60 then DINNER_CONVERSION_RATE else CONVERSION_RATE

/-- Lines 481-490: spawn `n` people at `loc`; per person one speed draw
`max(gauss(args.speed, 1), .2)`, then, when any hall is open, an
immediate destination draw for the person just appended. -/
def spawnOne (geo : Geo) (argsSpeed : ℚ) (openH : List String) (loc : Loc) :
    ℕ → List Person → RNG → Except String (List Person × RNG)
  | 0, acc, r => .ok (acc, r)
  | n + 1, acc, r =>
    let g := pyGauss argsSpeed 1 r
    let sp := max g.1 0.2
    let p : Person := ⟨loc, sp, none⟩
    if openH.isEmpty then spawnOne geo argsSpeed openH loc n (acc ++ [p]) g.2
    else
      match p.choose_dest geo openH g.2 with
      | .error e => .error e
      | .ok pr => spawnOne geo argsSpeed openH loc n (acc ++ [pr.1]) pr.2

/-- Lines 466-483: process one `end_times` event.  A missing key in the
classroom-coordinate table is a Python `KeyError`; an unparsable
(`[0, 0]`) or out-of-bounds coordinate skips the event. -/
def spawnEvent (geo : Geo) (args : Args) (locData : List (String × Loc)) (openH : List String)
    (minute : ℚ) (ev : Event) (people : List Person) (r : RNG) :
    Except String (List Person × RNG) :=
  match (locData.find? (fun kv => decide (kv.1 = ev.location_string))).map (fun kv => kv.2) with
  | none => .error "KeyError"
  | some loc =>
    if loc = ((0 : ℚ), (0 : ℚ)) ∨ in_bounds loc = false then .ok (people, r)
    else
      let n := (pyInt ((ev.people : ℚ) * spawnRate minute)).toNat
      spawnOne geo args.speed openH loc n people r

def spawnEvents (geo : Geo) (args : Args) (locData : List (String × Loc)) (openH : List String)
    (minute : ℚ) : List Event → List Person → RNG → Except String (List Person × RNG)
  | [], acc, r => .ok (acc, r)
  | ev :: evs, acc, r =>
    match spawnEvent geo args locData openH minute ev acc r with
    | .error e => .error e
    | .ok pr => spawnEvents geo args locData openH minute evs pr.1 pr.2

/-- Lines 465-490: the whole spawning step fires only when the current
minute is exactly a key of `end_times` (note: the dict has no weekday
dimension). -/
def spawnPhase (geo : Geo) (args : Args) (locData : List (String × Loc)) (et : EndTimes)
    (openH : List String) (minute : ℚ) (people : List Person) (r : RNG) :
    Except String (List Person × RNG) :=
  match et.find? (fun kv => decide ((kv.1 : ℚ) = minute)) with
  | none => .ok (people, r)
  | some kv => spawnEvents geo args locData openH minute kv.2 people r

/-- Lines 493-506: the movement/despawn loop, with Python's
`for person in l: ... l.remove(person)` cursor semantics — after an
in-place removal the element that slides into the freed slot is never
visited.  The cursor `i` is the iterator position; removal keeps the
list index `i` for the next probe, which is the old element `i + 1`. -/
def movementLoop (geo : Geo) (openH : List String) (ti : ℕ) (l : List Person) (i : ℕ)
    (r : RNG) : Except String (List Person × RNG) :=
  if h : i < l.length then
    let p := l.get ⟨i, h⟩
    match p.destination with
    | some _ => movementLoop geo openH ti (l.set i (movePerson geo ti p)) (i + 1) r
    | none =>
      if openH.isEmpty then
        let u := RNG.next r
        if u.1 < CONVERSION_RATE then movementLoop geo openH ti (l.eraseIdx i) (i + 1) u.2
        else movementLoop geo openH ti l (i + 1) u.2
      else
        match p.choose_dest geo openH r with
        | .error e => .error e
        | .ok pr => movementLoop geo openH ti (l.set i (movePerson geo ti pr.1)) (i + 1) pr.2
  else .ok (l, r)
termination_by l.length - i
decreasing_by
  · simp [List.length_set]; omega
  · rw [List.length_eraseIdx]; simp [h]; omega
  · omega
  · simp [List.length_set]; omega

/-- Lines 509-521: the arrival scan.  `i` is the enumerate index; the
list is not mutated during the scan (`to_remove` is deferred). -/
def arrivalScan (geo : Geo) (lineTime : ℕ) :
    List Person → ℕ → List (List ℚ × List ℚ) → RNG →
      List ℕ × List (List ℚ × List ℚ) × RNG
  | [], _, hqs, r => ([], hqs, r)
  | p :: ps, i, hqs, r =>
    match firstMatch geo p with
    | some k =>
      let cur := hqs.getD k ([], [])
      let g := pyGauss ((cur.1.length : ℚ) * (lineTime : ℚ)) 10 r
      let v := min (max g.1 0 / 60) 60
      let hqs1 := hqs.set k (cur.1 ++ [v], cur.2)
      let rest := arrivalScan geo lineTime ps (i + 1) hqs1 g.2
      (i :: rest.1, rest.2)
    | none => arrivalScan geo lineTime ps (i + 1) hqs r

/-- Lines 509-527: arrival scan plus the deferred index pops. -/
def arrivalPhase (geo : Geo) (lineTime : ℕ) (people : List Person)
    (hqs : List (List ℚ × List ℚ)) (r : RNG) :
    List Person × List (List ℚ × List ℚ) × RNG :=
  let scan := arrivalScan geo lineTime people 0 hqs r
  (popLoop people scan.1 0, scan.2.1, scan.2.2)

/-- Lines 544-546 interleaved in the line-pop loop: one eating duration
`max(gauss(eating_time, 2000), 0) / 60` per person moved off the line. -/
def drawEats (eatMean : ℚ) : ℕ → RNG → List ℚ × RNG
  | 0, r => ([], r)
  | n + 1, r =>
    let g := pyGauss eatMean 2000 r
    let rest := drawEats eatMean n g.2
    (max g.1 0 / 60 :: rest.1, rest.2)

/-- Lines 531-562 for one hall: decrement the line in place, pop the
non-positive entries (appending one fresh eating duration each), then
decrement the eating list — including the entries appended this very
tick — and pop its non-positive entries. -/
def serveHall (delta eatMean : ℚ) (line eating : List ℚ) (r : RNG) :
    List ℚ × List ℚ × RNG :=
  let line1 := line.map (fun x => x - delta)
  let rem := idxsWhere (fun x => decide (x ≤ 0)) line1
  let line2 := popLoop line1 rem 0
  let evs := drawEats eatMean rem.length r
  let eat1 := (eating ++ evs.1).map (fun x => x - delta)
  let remE := idxsWhere (fun x => decide (x ≤ 0)) eat1
  let eat2 := popLoop eat1 remE 0
  (line2, eat2, evs.2)

/-- Lines 531-562: serve every hall in catalog order. -/
def servicePhase (delta eatMean : ℚ) :
    List (List ℚ × List ℚ) → RNG → List (List ℚ × List ℚ) × RNG
  | [], r => ([], r)
  | hq :: rest, r =>
    let s1 := serveHall delta eatMean hq.1 hq.2 r
    let s2 := servicePhase delta eatMean rest s1.2.2
    ((s1.1, s1.2.1) :: s2.1, s2.2)

/-- One logged record (lines 569-580): minute, outside count, and
per-hall (in line, eating) counts in catalog order. -/
structure Snapshot where
  minute : ℚ
  outside : ℕ
  halls : List (ℕ × ℕ)
deriving DecidableEq

def mkSnapshot (minute : ℚ) (people : List Person) (hqs : List (List ℚ × List ℚ)) :
    Snapshot :=
  ⟨minute, people.length, hqs.map (fun q => (q.1.length, q.2.length))⟩

/-- Lines 565-580: `if current_day == len(log): log.append([])` then
`log[current_day].append(snap)`; an out-of-range day would be a Python
`IndexError` (`none`). -/
def logAppend (log : List (List Snapshot)) (day : ℕ) (snap : Snapshot) :
    Option (List (List Snapshot)) :=
  let log1 := if day = log.length then log ++ [[]] else log
  if day < log1.length then some (log1.set day (log1.getD day [] ++ [snap])) else none

/-- All six facilities with empty line/eating collections (lines
352-358, 368-374). -/
def emptyHallsQs : List (List ℚ × List ℚ) := DINING_HALLS.map (fun _ => ([], []))

/-- The mutable simulation state (lines 339-362).  `current_day = None`
(exhaustion) is not stored: `iterate` returns `none` at that transition
and the driver stops. -/
structure SimState where
  end_times : EndTimes
  location_data : List (String × Loc)
  args : Args
  current_minute : ℚ
  current_day : ℕ
  outside_people : List Person
  halls_qs : List (List ℚ × List ℚ)
  rng : RNG
  log : List (List Snapshot)

/-- Steps 1-5 plus logging of `SimState.iterate` (lines 462-582), after
the clock advance/rollover has fixed `current_minute`, `current_day`
and (on rollover) cleared the populations. -/
def tickBody (geo : Geo) (s : SimState) (delta : ℚ) : Except String (Option SimState) :=
  let openH := openHallNames s.current_minute
  match spawnPhase geo s.args s.location_data s.end_times openH s.current_minute
      s.outside_people s.rng with
  | .error e => .error e
  | .ok pr1 =>
    match movementLoop geo openH s.args.time_interval pr1.1 0 pr1.2 with
    | .error e => .error e
    | .ok pr2 =>
      let ar := arrivalPhase geo s.args.line_time pr2.1 s.halls_qs pr2.2
      let sv := servicePhase delta (s.args.eating_time : ℚ) ar.2.1 ar.2.2
      let snap := mkSnapshot s.current_minute ar.1 sv.1
      match logAppend s.log s.current_day snap with
      | none => .error "IndexError"
      | some log1 =>
        .ok (some { s with
          outside_people := ar.1
          halls_qs := sv.1
          rng := sv.2
          log := log1 })

/-- Lines 440-452 plus the body: advance the clock by
`time_interval / 60` minutes; at `DAY_END_TIME` reset to
`DAY_START_TIME`, clear the populations and advance the day
(lines 364-379), finishing (`none`) when the day list is exhausted. -/
def SimState.iterate (geo : Geo) (s : SimState) : Except String (Option SimState) :=
  let m1 := s.current_minute + (s.args.time_interval : ℚ) / 60
  let delta := m1 - s.current_minute
  if DAY_END_TIME ≤ m1 then
    if s.args.days.length ≤ s.current_day + 1 then .ok none
    else
      tickBody geo { s with
        current_minute := DAY_START_TIME
        current_day := s.current_day + 1
        outside_people := []
        halls_qs := emptyHallsQs } delta
  else tickBody geo { s with current_minute := m1 } delta

/-- Lines 344-362: the constructed starting state (note
`current_minute = DAY_START_TIME - 1`, line 349). -/
def SimState.init (et : EndTimes) (locData : List (String × Loc)) (args : Args) (r : RNG) :
    SimState :=
  { end_times := et, location_data := locData, args := args,
    current_minute := DAY_START_TIME - 1, current_day := 0,
    outside_people := [], halls_qs := emptyHallsQs, rng := r, log := [] }

/-- The driver loop (lines 790-806): call `iterate` until it signals
completion, up to `n` times. -/
def runTicks (geo : Geo) : ℕ → SimState → Except String (Option SimState)
  | 0, s => .ok (some s)
  | n + 1, s =>
    match SimState.iterate geo s with
    | .error e => .error e
    | .ok none => .ok none
    | .ok (some s1) => runTicks geo n s1

/-- States the driver can observe: the initial state and everything a
completed tick produces. -/
inductive Reachable (geo : Geo) (et : EndTimes) (locData : List (String × Loc)) (args : Args)
    (r : RNG) : SimState → Prop
  | init : Reachable geo et locData args r (SimState.init et locData args r)
  | step (s s1 : SimState) : Reachable geo et locData args r s →
      SimState.iterate geo s = .ok (some s1) → Reachable geo et locData args r s1

theorem eraseIdx_at_append {α : Type} (l1 : List α) (x : α) (l2 : List α) :
    (l1 ++ x :: l2).eraseIdx l1.length = l1 ++ l2 := by
  induction l1 with
  | nil => rfl
  | cons a as ih => exact congrArg (List.cons a) ih

theorem set_at_append {α : Type} (l1 : List α) (x y : α) (l2 : List α) :
    (l1 ++ x :: l2).set l1.length y = l1 ++ y :: l2 := by
  induction l1 with
  | nil => rfl
  | cons a as ih => exact congrArg (List.cons a) ih

theorem get_at_append {α : Type} (l1 : List α) (x : α) (l2 : List α)
    (h : l1.length < (l1 ++ x :: l2).length) : (l1 ++ x :: l2).get ⟨l1.length, h⟩ = x := by
  induction l1 with
  | nil => rfl
  | cons a as ih => exact ih _

/-- Functional characterization of the movement/despawn loop when no
facility is open: persons are examined in cursor order; a destination
(if any) triggers a move; a destination-less person gets one uniform
draw against the DEFAULT `CONVERSION_RATE` (whatever the time of day),
and a successful draw removes the person in place, which makes the loop
skip the element that slides into the freed slot entirely (no draw, no
move). -/
def despawnSpec (geo : Geo) (ti : ℕ) : List Person → RNG → List Person × RNG
  | [], r => ([], r)
  | p :: ps, r =>
    match p.destination with
    | some _ =>
      let rest := despawnSpec geo ti ps r
      (movePerson geo ti p :: rest.1, rest.2)
    | none =>
      let u := RNG.next r
      if u.1 < CONVERSION_RATE then
        match ps with
        | [] => ([], u.2)
        | q :: qs =>
          let rest := despawnSpec geo ti qs u.2
          (q :: rest.1, rest.2)
      else
        let rest := despawnSpec geo ti ps u.2
        (p :: rest.1, rest.2)

theorem movementLoop_append (geo : Geo) (ti : ℕ) :
    ∀ (fuel : ℕ) (rest done : List Person) (r : RNG), rest.length ≤ fuel →
      movementLoop geo [] ti (done ++ rest) done.length r =
        .ok (done ++ (despawnSpec geo ti rest r).1, (despawnSpec geo ti rest r).2) := by
  intro fuel
  induction fuel with
  | zero =>
    intro rest done r hle
    have hrest : rest = [] := List.length_eq_zero.mp (Nat.le_zero.mp hle)
    subst hrest
    rw [movementLoop]
    simp [despawnSpec]
  | succ n ih =>
    intro rest done r hle
    cases rest with
    | nil =>
      rw [movementLoop]
      simp [despawnSpec]
    | cons p ps =>
      have hlt : done.length < (done ++ p :: ps).length := by
        simp [List.length_append]
      rw [movementLoop, dif_pos hlt]
      simp only [get_at_append]
      cases hdest : p.destination with
      | some d =>
        simp only [hdest, set_at_append]
        have hstep : done ++ movePerson geo ti p :: ps
            = (done ++ [movePerson geo ti p]) ++ ps := by simp
        have hidx : done.length + 1 = (done ++ [movePerson geo ti p]).length := by simp
        rw [hstep, hidx, ih ps _ r (by simpa using Nat.le_of_succ_le_succ hle)]
        simp [despawnSpec, hdest]
      | none =>
        simp only [hdest, List.isEmpty_nil, if_true]
        by_cases hdraw : (RNG.next r).1 < CONVERSION_RATE
        · rw [if_pos hdraw, eraseIdx_at_append]
          cases ps with
          | nil =>
            rw [movementLoop]
            rw [dif_neg (by simp)]
            simp [despawnSpec, hdest, if_pos hdraw]
          | cons q qs =>
            have hstep : done ++ q :: qs = (done ++ [q]) ++ qs := by simp
            have hidx : done.length + 1 = (done ++ [q]).length := by simp
            rw [hstep, hidx, ih qs _ (RNG.next r).2 (by
              simp only [List.length_cons] at hle
              omega)]
            simp [despawnSpec, hdest, if_pos hdraw]
        · rw [if_neg hdraw]
          have hstep : done ++ p :: ps = (done ++ [p]) ++ ps := by simp
          have hidx : done.length + 1 = (done ++ [p]).length := by simp
          rw [hstep, hidx, ih ps _ (RNG.next r).2 (by simpa using Nat.le_of_succ_le_succ hle)]
          simp [despawnSpec, hdest, if_neg hdraw]

/-- The line queue of hall `k` in the parallel queue list. -/
def lineAt (hqs : List (List ℚ × List ℚ)) (k : ℕ) : List ℚ := (hqs.getD k ([], [])).1

/-- The clamped noisy line duration pushed on arrival (line 517):
`min(max(gauss(baseSeconds, 10), 0) / 60, 60)` with the gaussian
modelled as `baseSeconds + 10 * u`. -/
def pyLineDur (baseSeconds u : ℚ) : ℚ := min (max (baseSeconds + 10 * u) 0 / 60) 60

theorem pyLineDur_bounds (b u : ℚ) : 0 ≤ pyLineDur b u ∧ pyLineDur b u ≤ 60 := by
  constructor
  · apply le_min
    · positivity
    · norm_num
  · exact min_le_right _ _

theorem findIdx?_some_bounds {α : Type} (p : α → Bool) :
    ∀ (l : List α) (i k : ℕ), List.findIdx? p l i = some k → i ≤ k ∧ k < i + l.length := by
  intro l
  induction l with
  | nil => intro i k h; exact absurd h (by simp [List.findIdx?])
  | cons a as ih =>
    intro i k h
    rw [List.findIdx?] at h
    by_cases hp : p a
    · rw [if_pos hp] at h
      have hik : i = k := Option.some.inj h
      subst hik
      simp only [List.length_cons]
      omega
    · rw [if_neg hp] at h
      have := ih (i + 1) k h
      simp only [List.length_cons]
      omega

theorem getD_set_self (l : List (List ℚ × List ℚ)) (k : ℕ) (x d : List ℚ × List ℚ)
    (h : k < l.length) : (l.set k x).getD k d = x := by
  simp [List.getD, List.getElem?_set_self, h]

theorem getD_set_ne (l : List (List ℚ × List ℚ)) (j k : ℕ) (x d : List ℚ × List ℚ)
    (h : j ≠ k) : (l.set j x).getD k d = l.getD k d := by
  simp [List.getD, List.getElem?_set_ne, h]

/-- One unfolding of the arrival scan at a person whose first match is
hall `k0`. -/
theorem arrivalScan_cons_some (geo : Geo) (lt : ℕ) (p : Person) (ps : List Person) (i : ℕ)
    (hqs : List (List ℚ × List ℚ)) (r : RNG) (k0 : ℕ) (hm : firstMatch geo p = some k0) :
    arrivalScan geo lt (p :: ps) i hqs r =
      (i :: (arrivalScan geo lt ps (i + 1)
          (hqs.set k0 ((hqs.getD k0 ([], [])).1 ++
            [pyLineDur ((((hqs.getD k0 ([], [])).1.length : ℕ) : ℚ) * (lt : ℚ))
              (r.seq r.idx)], (hqs.getD k0 ([], [])).2)) ⟨r.seq, r.idx + 1⟩).1,
        (arrivalScan geo lt ps (i + 1)
          (hqs.set k0 ((hqs.getD k0 ([], [])).1 ++
            [pyLineDur ((((hqs.getD k0 ([], [])).1.length : ℕ) : ℚ) * (lt : ℚ))
              (r.seq r.idx)], (hqs.getD k0 ([], [])).2)) ⟨r.seq, r.idx + 1⟩).2) := by
  simp only [arrivalScan, hm, pyGauss, RNG.next, pyLineDur]

/-- One unfolding of the arrival scan at a person matching no hall. -/
theorem arrivalScan_cons_none (geo : Geo) (lt : ℕ) (p : Person) (ps : List Person) (i : ℕ)
    (hqs : List (List ℚ × List ℚ)) (r : RNG) (hm : firstMatch geo p = none) :
    arrivalScan geo lt (p :: ps) i hqs r = arrivalScan geo lt ps (i + 1) hqs r := by
  simp only [arrivalScan, hm]

/-- What the arrival scan does to one hall's line queue: it appends one
clamped noisy duration per person whose first geometric match is that
hall, each with pre-noise base `currentQueueLength * line_time`. -/
theorem arrivalScan_line (geo : Geo) (lt : ℕ) :
    ∀ (ps : List Person) (i : ℕ) (hqs : List (List ℚ × List ℚ)) (r : RNG) (k : ℕ),
      DINING_HALLS.length ≤ hqs.length →
      ∃ new : List ℚ,
        lineAt (arrivalScan geo lt ps i hqs r).2.1 k = lineAt hqs k ++ new ∧
        new.length = ps.countP (fun q => decide (firstMatch geo q = some k)) ∧
        (∀ v ∈ new, 0 ≤ v ∧ v ≤ 60) ∧
        ∀ j, (hj : j < new.length) →
          ∃ u : ℚ,
            new.get ⟨j, hj⟩ = pyLineDur ((((lineAt hqs k).length + j : ℕ) : ℚ) * (lt : ℚ)) u := by
  intro ps
  induction ps with
  | nil =>
    intro i hqs r k hlen
    refine ⟨[], by simp [arrivalScan], by simp, by simp, ?_⟩
    intro j hj
    simp at hj
  | cons p ps ih =>
    intro i hqs r k hlen
    cases hm : firstMatch geo p with
    | none =>
      obtain ⟨new, h1, h2, h3, h4⟩ := ih (i + 1) hqs r k hlen
      refine ⟨new, ?_, ?_, h3, h4⟩
      · rw [arrivalScan_cons_none geo lt p ps i hqs r hm]
        exact h1
      · rw [h2, List.countP_cons]
        simp [hm]
    | some k0 =>
      have hk0 : k0 < DINING_HALLS.length := by
        have := findIdx?_some_bounds _ _ _ _ hm
        omega
      have hk0len : k0 < hqs.length := lt_of_lt_of_le hk0 hlen
      rw [arrivalScan_cons_some geo lt p ps i hqs r k0 hm]
      set v := pyLineDur ((((hqs.getD k0 ([], [])).1.length : ℕ) : ℚ) * (lt : ℚ))
        (r.seq r.idx) with hv
      set hqs1 := hqs.set k0 ((hqs.getD k0 ([], [])).1 ++ [v], (hqs.getD k0 ([], [])).2)
        with hhqs1
      have hlen1 : DINING_HALLS.length ≤ hqs1.length := by
        simpa [hhqs1] using hlen
      obtain ⟨new1, h1, h2, h3, h4⟩ := ih (i + 1) hqs1 ⟨r.seq, r.idx + 1⟩ k hlen1
      by_cases hkk : k0 = k
      · subst hkk
        have hline1 : lineAt hqs1 k0 = lineAt hqs k0 ++ [v] := by
          simp only [hhqs1, lineAt]
          rw [getD_set_self _ _ _ _ hk0len]
        have hlen1q : (lineAt hqs1 k0).length = (lineAt hqs k0).length + 1 := by
          rw [hline1, List.length_append, List.length_cons, List.length_nil]
        refine ⟨v :: new1, ?_, ?_, ?_, ?_⟩
        · rw [h1, hline1, List.append_assoc]
          rfl
        · rw [List.countP_cons]
          simp [hm, h2]
        · intro w hw
          rcases List.mem_cons.mp hw with hw1 | hw2
          · subst hw1; exact pyLineDur_bounds _ _
          · exact h3 w hw2
        · intro j hj
          cases j with
          | zero =>
            refine ⟨r.seq r.idx, ?_⟩
            show v = _
            rw [hv]
            simp [lineAt]
          | succ j1 =>
            have hj1 : j1 < new1.length := by simpa using hj
            obtain ⟨u, hu⟩ := h4 j1 hj1
            refine ⟨u, ?_⟩
            show new1.get ⟨j1, hj1⟩ = _
            rw [hu, hlen1q]
            have harith : (lineAt hqs k0).length + 1 + j1
                = (lineAt hqs k0).length + (j1 + 1) := by omega
            rw [harith]
      · have hline1 : lineAt hqs1 k = lineAt hqs k := by
          simp only [hhqs1, lineAt]
          rw [getD_set_ne _ _ _ _ _ hkk]
        refine ⟨new1, ?_, ?_, h3, ?_⟩
        · rw [h1, hline1]
        · rw [List.countP_cons]
          simp [hm, hkk, h2]
        · intro j hj
          obtain ⟨u, hu⟩ := h4 j hj
          refine ⟨u, ?_⟩
          rw [hu, hline1]

theorem map_succ_add (is : List ℕ) (i : ℕ) :
    (is.map (· + 1)).map (· + i) = is.map (· + (i + 1)) := by
  rw [List.map_map]
  apply List.map_congr_left
  intro a _
  simp only [Function.comp_apply]
  omega

/-- The indices collected by the arrival scan are exactly the enumerate
positions of the persons whose first match is some hall. -/
theorem arrivalScan_idxs (geo : Geo) (lt : ℕ) :
    ∀ (ps : List Person) (i : ℕ) (hqs : List (List ℚ × List ℚ)) (r : RNG),
      (arrivalScan geo lt ps i hqs r).1
        = (idxsWhere (fun q => (firstMatch geo q).isSome) ps).map (· + i) := by
  intro ps
  induction ps with
  | nil => intro i hqs r; simp [arrivalScan, idxsWhere]
  | cons p ps ih =>
    intro i hqs r
    cases hm : firstMatch geo p with
    | none =>
      rw [arrivalScan_cons_none geo lt p ps i hqs r hm, ih]
      simp only [idxsWhere, hm, Option.isSome_none, Bool.false_eq_true, if_false,
        map_succ_add]
    | some k0 =>
      rw [arrivalScan_cons_some geo lt p ps i hqs r k0 hm]
      simp only [ih, idxsWhere, hm, Option.isSome_some, if_true, List.map_cons,
        Nat.zero_add, map_succ_add]

/-- Lines 509-527: after the scan and the offset pops, the outside list
is exactly the persons matching no hall, in order. -/
theorem arrivalPhase_outside (geo : Geo) (lt : ℕ) (people : List Person)
    (hqs : List (List ℚ × List ℚ)) (r : RNG) :
    (arrivalPhase geo lt people hqs r).1
      = people.filter (fun q => !(firstMatch geo q).isSome) := by
  show popLoop people (arrivalScan geo lt people 0 hqs r).1 0 = _
  rw [arrivalScan_idxs]
  have h0 : (idxsWhere (fun q => (firstMatch geo q).isSome) people).map (· + 0)
      = idxsWhere (fun q => (firstMatch geo q).isSome) people := by
    simp
  rw [h0, popLoop_idxsWhere]

theorem drawEats_length (eatMean : ℚ) :
    ∀ (n : ℕ) (r : RNG), (drawEats eatMean n r).1.length = n := by
  intro n
  induction n with
  | zero => intro r; rfl
  | succ m ih => intro r; simp [drawEats, ih]

theorem cumSum_getLastD (ws : List ℚ) : ∀ s : ℚ, (cumSum ws s).getLastD s = s + ws.sum := by
  induction ws with
  | nil => intro s; simp [cumSum]
  | cons w ws ih =>
    intro s
    rw [cumSum, List.getLastD_cons, ih]
    rw [List.sum_cons]
    ring

theorem spawnOne_length (geo : Geo) (sp : ℚ) (openH : List String) (loc : Loc) :
    ∀ (n : ℕ) (acc : List Person) (r : RNG) (out : List Person × RNG),
      spawnOne geo sp openH loc n acc r = .ok out → out.1.length = acc.length + n := by
  intro n
  induction n with
  | zero =>
    intro acc r out h
    rw [spawnOne] at h
    cases h
    simp
  | succ m ih =>
    intro acc r out h
    rw [spawnOne] at h
    by_cases hop : openH.isEmpty
    · rw [if_pos hop] at h
      have := ih _ _ _ h
      simp only [List.length_append, List.length_cons, List.length_nil] at this
      omega
    · rw [if_neg hop] at h
      cases hcd : Person.choose_dest geo
          ⟨loc, max (pyGauss sp 1 r).1 0.2, none⟩ openH (pyGauss sp 1 r).2 with
      | error e => rw [hcd] at h; exact absurd h (by simp)
      | ok pr =>
        rw [hcd] at h
        have := ih _ _ _ h
        simp only [List.length_append, List.length_cons, List.length_nil] at this
        omega

theorem movementLoop_nil (geo : Geo) (openH : List String) (ti : ℕ) (r : RNG) :
    movementLoop geo openH ti [] 0 r = .ok ([], r) := by
  rw [movementLoop]
  simp

theorem servicePhase_empty (delta eatMean : ℚ) (r : RNG) :
    servicePhase delta eatMean emptyHallsQs r = (emptyHallsQs, r) := by
  simp [servicePhase, serveHall, drawEats, emptyHallsQs, DINING_HALLS, idxsWhere, popLoop]

/-- A completed tick body changes only the population collections, the
generator and the log. -/
theorem tickBody_fields (geo : Geo) (s : SimState) (delta : ℚ) (s1 : SimState)
    (h : tickBody geo s delta = .ok (some s1)) :
    s1.current_minute = s.current_minute ∧ s1.current_day = s.current_day ∧
      s1.end_times = s.end_times ∧ s1.location_data = s.location_data ∧
      s1.args = s.args := by
  simp only [tickBody] at h
  split at h
  · exact absurd h (by simp)
  · split at h
    · exact absurd h (by simp)
    · split at h
      · exact absurd h (by simp)
      · simp only [Except.ok.injEq, Option.some.injEq] at h
        subst h
        exact ⟨rfl, rfl, rfl, rfl, rfl⟩

/-- Constant-distance geometry: every facility is 500 m away and a step
leaves the walker in place. -/
def geoFar : Geo := ⟨fun _ _ => 500, fun cur _ _ => cur⟩

/-- Degenerate geometry: every distance is zero. -/
def geoZero : Geo := ⟨fun _ _ => 0, fun cur _ _ => cur⟩

/-- A seeded stream that always draws 3/10. -/
def rngC : RNG := ⟨fun _ => 3/10, 0⟩

/-- A seeded stream that always draws 1/2. -/
def rngHalf : RNG := ⟨fun _ => 1/2, 0⟩

/-- Default configuration: two simulated days, 60-second ticks. -/
def argsA : Args := ⟨['M', 'T'], 60, 3600, 30, 0.8⟩

/-- A walker standing on campus with no destination. -/
def perA : Person := ⟨(34.1, -117.71), 1, none⟩

/-- Outside-population size of a tick result (999 marks an impossible
shape). -/
def outsideCountOf (x : Except String (Option SimState)) : ℕ :=
  match x with
  | .ok (some s) => s.outside_people.length
  | _ => 999

/-- Per-day snapshot log of a tick result. -/
def logOf (x : Except String (Option SimState)) : Option (List (List Snapshot)) :=
  match x with
  | .ok (some s) => some s.log
  | _ => none

/-- Claim C6: in each tick, every lineQueue/eatingQueue entry present at
the start of the service steps is decremented by exactly deltaMinutes
exactly once before its removal check; every line entry that becomes
non-positive is removed with exactly one fresh eating entry appended in
its place; the relative order of the surviving entries is preserved
(they are exactly the filtered decremented originals, in order). -/
theorem claim_C6_service (delta eatMean : ℚ) (line eating : List ℚ) (r : RNG) :
    ∃ evs : List ℚ,
      (serveHall delta eatMean line eating r).1
          = (line.map (fun x => x - delta)).filter (fun x => !decide (x ≤ 0)) ∧
      evs.length = (line.map (fun x => x - delta)).countP (fun x => decide (x ≤ 0)) ∧
      (serveHall delta eatMean line eating r).2.1
          = ((eating ++ evs).map (fun x => x - delta)).filter (fun x => !decide (x ≤ 0)) := by
  refine ⟨(drawEats eatMean
    ((idxsWhere (fun x => decide (x ≤ 0)) (line.map (fun x => x - delta))).length) r).1,
    ?_, ?_, ?_⟩
  · show popLoop (line.map (fun x => x - delta))
        (idxsWhere (fun x => decide (x ≤ 0)) (line.map (fun x => x - delta))) 0 = _
    rw [popLoop_idxsWhere]
  · rw [idxsWhere_length, drawEats_length]
  · show popLoop _ (idxsWhere (fun x => decide (x ≤ 0)) _) 0 = _
    rw [popLoop_idxsWhere]

/-- Claim C5: the embedding threads all randomness through the single
seeded generator and is otherwise a pure function of its inputs, so two
runs from identical seeds and identical schedule/location/configuration
inputs produce identical results — in particular identical per-day
snapshot logs. -/
theorem claim_C5_determinism (geo : Geo) (et : EndTimes) (locData : List (String × Loc))
    (args : Args) (r1 r2 : RNG) (n : ℕ) (hseed : r1 = r2) :
    runTicks geo n (SimState.init et locData args r1)
        = runTicks geo n (SimState.init et locData args r2) ∧
    logOf (runTicks geo n (SimState.init et locData args r1))
        = logOf (runTicks geo n (SimState.init et locData args r2)) := by
  subst hseed
  exact ⟨rfl, rfl⟩

/-- Witness for C5 at a concrete seed and input. -/
theorem claim_C5_witness :
    rngC = rngC ∧
    runTicks geoFar 3 (SimState.init [] [] argsA rngC)
        = runTicks geoFar 3 (SimState.init [] [] argsA rngC) :=
  ⟨rfl, (claim_C5_determinism geoFar [] [] argsA rngC rngC 3 rfl).1⟩

/-- Claim C3 (amended): with no facility open, the movement/despawn loop
behaves as `despawnSpec`: persons are probed in cursor order, every
probed destination-less person gets exactly one draw at the DEFAULT
`CONVERSION_RATE` (also during dinner hours), and a successful draw
removes the person in place, skipping the element that slides into the
freed slot for the rest of the tick. -/
theorem claim_C3_amended (geo : Geo) (ti : ℕ) (l : List Person) (r : RNG) :
    movementLoop geo [] ti l 0 r = .ok (despawnSpec geo ti l r) := by
  have h := movementLoop_append geo ti l.length l [] r le_rfl
  simpa using h

/-- Claim C8: every duration pushed onto a line queue by the arrival
step lies in [0, 60] minutes, and each one is the clamped gaussian
around base = (queue length at the moment of insertion) * line_time
seconds. -/
theorem claim_C8_line_durations (geo : Geo) (lt : ℕ) (people : List Person)
    (hqs : List (List ℚ × List ℚ)) (r : RNG) (k : ℕ)
    (hlen : DINING_HALLS.length ≤ hqs.length) :
    ∃ new : List ℚ,
      lineAt (arrivalPhase geo lt people hqs r).2.1 k = lineAt hqs k ++ new ∧
      (∀ v ∈ new, 0 ≤ v ∧ v ≤ 60) ∧
      ∀ j, (hj : j < new.length) →
        ∃ u : ℚ,
          new.get ⟨j, hj⟩ = pyLineDur ((((lineAt hqs k).length + j : ℕ) : ℚ) * (lt : ℚ)) u := by
  obtain ⟨new, h1, h2, h3, h4⟩ := arrivalScan_line geo lt people 0 hqs r k hlen
  refine ⟨new, ?_, h3, h4⟩
  show lineAt (arrivalScan geo lt people 0 hqs r).2.1 k = _
  exact h1

/-- Witness for C8 at a concrete tick input. -/
theorem claim_C8_witness :
    DINING_HALLS.length ≤ emptyHallsQs.length ∧
    ∃ new : List ℚ,
      lineAt (arrivalPhase geoFar 30 [perA] emptyHallsQs rngC).2.1 0
          = lineAt emptyHallsQs 0 ++ new ∧
      (∀ v ∈ new, 0 ≤ v ∧ v ≤ 60) ∧
      ∀ j, (hj : j < new.length) →
        ∃ u : ℚ,
          new.get ⟨j, hj⟩
            = pyLineDur ((((lineAt emptyHallsQs 0).length + j : ℕ) : ℚ) * ((30 : ℕ) : ℚ)) u :=
  ⟨by simp [emptyHallsQs],
    claim_C8_line_durations geoFar 30 [perA] emptyHallsQs rngC 0 (by simp [emptyHallsQs])⟩

/-- Case analysis of one completed tick: either the clock advance hit
`DAY_END_TIME` (reset to `DAY_START_TIME`, day +1) or the minute just
advanced by `time_interval / 60`.  The configuration never changes. -/
theorem iterate_cases (geo : Geo) (s : SimState) (s1 : SimState)
    (h : SimState.iterate geo s = .ok (some s1)) :
    s1.args = s.args ∧
    ((DAY_END_TIME ≤ s.current_minute + (s.args.time_interval : ℚ) / 60 ∧
        s1.current_minute = DAY_START_TIME ∧ s1.current_day = s.current_day + 1) ∨
      (¬ DAY_END_TIME ≤ s.current_minute + (s.args.time_interval : ℚ) / 60 ∧
        s1.current_minute = s.current_minute + (s.args.time_interval : ℚ) / 60 ∧
        s1.current_day = s.current_day)) := by
  simp only [SimState.iterate] at h
  by_cases hc : DAY_END_TIME ≤ s.current_minute + (s.args.time_interval : ℚ) / 60
  · rw [if_pos hc] at h
    by_cases hd : s.args.days.length ≤ s.current_day + 1
    · rw [if_pos hd] at h
      exact absurd h (by simp)
    · rw [if_neg hd] at h
      have hf := tickBody_fields _ _ _ _ h
      exact ⟨hf.2.2.2.2, Or.inl ⟨hc, hf.1, hf.2.1⟩⟩
  · rw [if_neg hc] at h
    have hf := tickBody_fields _ _ _ _ h
    exact ⟨hf.2.2.2.2, Or.inr ⟨hc, hf.1, hf.2.1⟩⟩

theorem reachable_args (geo : Geo) (et : EndTimes) (locData : List (String × Loc))
    (args : Args) (r : RNG) :
    ∀ s, Reachable geo et locData args r s → s.args = args := by
  intro s h
  induction h with
  | init => rfl
  | step s s1 hr hit ih =>
    rw [(iterate_cases geo s s1 hit).1, ih]

/-- One completed tick from a state whose minute is `DAY_START - 1` or
inside the day window lands inside `[DAY_START, DAY_END)`, provided the
tick interval is at least 60 seconds. -/
theorem iterate_minute_range (geo : Geo) (s : SimState) (s1 : SimState)
    (hti : 60 ≤ s.args.time_interval)
    (hm : s.current_minute = DAY_START_TIME - 1 ∨
      (DAY_START_TIME ≤ s.current_minute ∧ s.current_minute < DAY_END_TIME))
    (h : SimState.iterate geo s = .ok (some s1)) :
    DAY_START_TIME ≤ s1.current_minute ∧ s1.current_minute < DAY_END_TIME := by
  obtain ⟨-, hcase⟩ := iterate_cases geo s s1 h
  have hstartend : DAY_START_TIME < DAY_END_TIME := by
    norm_num [DAY_START_TIME, DAY_END_TIME]
  rcases hcase with ⟨hc, hm1, -⟩ | ⟨hc, hm1, -⟩
  · rw [hm1]
    exact ⟨le_refl _, hstartend⟩
  · rw [hm1]
    have h60 : (1 : ℚ) ≤ (s.args.time_interval : ℚ) / 60 := by
      rw [le_div_iff₀ (by norm_num : (0 : ℚ) < 60)]
      have hcast : (60 : ℚ) ≤ (s.args.time_interval : ℚ) := by exact_mod_cast hti
      linarith
    refine ⟨?_, not_le.mp hc⟩
    rcases hm with h419 | ⟨hge, -⟩
    · rw [h419]; linarith
    · linarith

theorem reachable_minute (geo : Geo) (et : EndTimes) (locData : List (String × Loc))
    (args : Args) (r : RNG) (hti : 60 ≤ args.time_interval) :
    ∀ s, Reachable geo et locData args r s →
      s.current_minute = DAY_START_TIME - 1 ∨
        (DAY_START_TIME ≤ s.current_minute ∧ s.current_minute < DAY_END_TIME) := by
  intro s h
  induction h with
  | init => left; rfl
  | step s s1 hr hit ih =>
    right
    refine iterate_minute_range geo s s1 ?_ ih hit
    rw [reachable_args geo et locData args r s hr]
    exact hti

/-- Claim C4 (counterexample): the claim includes the initial state, but
the constructed initial state has `current_minute = DAY_START_TIME - 1`,
strictly below `DAY_START_TIME`. -/
theorem claim_C4_counterexample :
    (SimState.init [] [] argsA rngC).current_minute = DAY_START_TIME - 1 ∧
    ¬ DAY_START_TIME ≤ (SimState.init [] [] argsA rngC).current_minute := by
  refine ⟨rfl, ?_⟩
  show ¬ DAY_START_TIME ≤ DAY_START_TIME - 1
  norm_num [DAY_START_TIME]

/-- Claim C4 (amended): in every reachable Running state, currentMinute
is either `DAY_START_TIME - 1` (the initial state, before any tick) or
in `[DAY_START_TIME, DAY_END_TIME)`; and — for tick intervals of at
least 60 seconds — every state produced by a completed tick lies in
`[DAY_START_TIME, DAY_END_TIME)`, so only the initial state can sit at
`DAY_START_TIME - 1`. -/
theorem claim_C4_amended (geo : Geo) (et : EndTimes) (locData : List (String × Loc))
    (args : Args) (r : RNG) (s : SimState) (hti : 60 ≤ args.time_interval)
    (hreach : Reachable geo et locData args r s) :
    (s.current_minute = DAY_START_TIME - 1 ∨
      (DAY_START_TIME ≤ s.current_minute ∧ s.current_minute < DAY_END_TIME)) ∧
    ∀ s1, SimState.iterate geo s = .ok (some s1) →
      DAY_START_TIME ≤ s1.current_minute ∧ s1.current_minute < DAY_END_TIME := by
  refine ⟨reachable_minute geo et locData args r hti s hreach, ?_⟩
  intro s1 h1
  refine iterate_minute_range geo s s1 ?_
    (reachable_minute geo et locData args r hti s hreach) h1
  rw [reachable_args geo et locData args r s hreach]
  exact hti

/-- Witness for the amended C4 at the concrete initial state. -/
theorem claim_C4_witness :
    60 ≤ argsA.time_interval ∧
    ((SimState.init [] [] argsA rngC).current_minute = DAY_START_TIME - 1 ∨
      (DAY_START_TIME ≤ (SimState.init [] [] argsA rngC).current_minute ∧
        (SimState.init [] [] argsA rngC).current_minute < DAY_END_TIME)) :=
  ⟨by norm_num [argsA],
    (claim_C4_amended geoFar [] [] argsA rngC (SimState.init [] [] argsA rngC)
      (by norm_num [argsA]) (Reachable.init)).1⟩

theorem spawnRate_pos (minute : ℚ) : 0 < spawnRate minute := by
  unfold spawnRate DINNER_CONVERSION_RATE CONVERSION_RATE
  split <;> norm_num

/-- Claim C7: a spawn event whose classroom resolves in bounds creates
exactly `floor(expectedHeadcount * conversionRate)` persons when that
floor is nonnegative, and exactly zero persons when the headcount is
negative — never a negative or fractional count. -/
theorem claim_C7_spawn_count (geo : Geo) (args : Args) (locData : List (String × Loc))
    (openH : List String) (minute : ℚ) (ev : Event) (people : List Person) (r : RNG)
    (out : List Person × RNG) (loc : Loc)
    (hloc : (locData.find? (fun kv => decide (kv.1 = ev.location_string))).map
      (fun kv => kv.2) = some loc)
    (hskip : ¬ (loc = ((0 : ℚ), (0 : ℚ)) ∨ in_bounds loc = false))
    (hok : spawnEvent geo args locData openH minute ev people r = .ok out) :
    (0 ≤ (ev.people : ℚ) * spawnRate minute →
        out.1.length = people.length + (⌊(ev.people : ℚ) * spawnRate minute⌋).toNat) ∧
    (ev.people < 0 → out.1.length = people.length) := by
  unfold spawnEvent at hok
  rw [hloc] at hok
  simp only [] at hok
  rw [if_neg hskip] at hok
  have hlen := spawnOne_length _ _ _ _ _ _ _ _ hok
  constructor
  · intro hnn
    rw [hlen]
    congr 1
    unfold pyInt
    rw [if_pos hnn]
  · intro hneg
    have hq : (ev.people : ℚ) * spawnRate minute < 0 :=
      mul_neg_of_neg_of_pos (by exact_mod_cast hneg) (spawnRate_pos minute)
    rw [hlen]
    have : pyInt ((ev.people : ℚ) * spawnRate minute) ≤ 0 := by
      unfold pyInt
      rw [if_neg (not_le.mpr hq)]
      exact Int.ceil_le.mpr (by exact_mod_cast le_of_lt hq)
    rw [Int.toNat_of_nonpos this, Nat.add_zero]

theorem pyChoices_error {α : Type} (pop : List α) (ws : List ℚ) (r : RNG)
    (h : ws.sum ≤ 0) :
    pyChoices pop ws r = .error "Total of weights must be greater than zero" := by
  simp only [pyChoices]
  rw [if_pos (by rw [cumSum_getLastD]; linarith)]

theorem pyChoices_ok_total {α : Type} (pop : List α) (ws : List ℚ) (r : RNG)
    (pr : α × RNG) (h : pyChoices pop ws r = .ok pr) : 0 < ws.sum := by
  simp only [pyChoices] at h
  by_cases hc : (cumSum ws 0).getLastD 0 ≤ 0
  · rw [if_pos hc] at h
    exact absurd h (by simp)
  · have hlt := not_le.mp hc
    rw [cumSum_getLastD] at hlt
    linarith

/-- Claim C10: called on a non-empty choice set in which every facility
is at distance zero (all weights zero), `choose_dest` raises the
`random.choices` ValueError instead of assigning a destination; and it
can only succeed when at least one choice is at strictly positive
distance. -/
theorem claim_C10_choose_dest (geo : Geo) (p : Person) (choices : List String) (r : RNG)
    (hne : choices ≠ [])
    (hnn : ∀ dh ∈ choices, 0 ≤ p.get_distance geo (getHall dh).location) :
    ((∀ dh ∈ choices, p.get_distance geo (getHall dh).location = 0) →
        p.choose_dest geo choices r = .error "Total of weights must be greater than zero") ∧
    ∀ q r1, p.choose_dest geo choices r = .ok (q, r1) →
      ∃ dh ∈ choices, 0 < p.get_distance geo (getHall dh).location := by
  have hempty : choices.isEmpty = false := by
    cases choices with
    | nil => exact absurd rfl hne
    | cons a as => rfl
  constructor
  · intro hz
    have hsum0 : (choices.map (fun dh => p.get_distance geo (getHall dh).location)).sum
        = 0 := by
      apply List.sum_eq_zero
      intro x hx
      obtain ⟨dh, hdh, rfl⟩ := List.mem_map.mp hx
      exact hz dh hdh
    simp only [Person.choose_dest, hempty, Bool.false_eq_true, if_false,
      pyChoices_error choices _ r (le_of_eq hsum0)]
  · intro q r1 hok
    simp only [Person.choose_dest, hempty, Bool.false_eq_true, if_false] at hok
    cases hpc : pyChoices choices
        (choices.map (fun dh => p.get_distance geo (getHall dh).location)) r with
    | error e => rw [hpc] at hok; exact absurd hok (by simp)
    | ok pr =>
      have hpos := pyChoices_ok_total _ _ _ _ hpc
      by_contra hno
      push_neg at hno
      have hsum0 : (choices.map (fun dh => p.get_distance geo (getHall dh).location)).sum
          = 0 := by
        apply List.sum_eq_zero
        intro x hx
        obtain ⟨dh, hdh, rfl⟩ := List.mem_map.mp hx
        exact le_antisymm (hno dh hdh) (hnn dh hdh)
      linarith

/-- Witness for C10: one open hall with the all-zero-distance geometry
raises the ValueError. -/
theorem claim_C10_witness :
    (["Hoch-Shanahan"] : List String) ≠ [] ∧
    Person.choose_dest geoZero perA ["Hoch-Shanahan"] rngC
      = .error "Total of weights must be greater than zero" :=
  ⟨by simp,
    (claim_C10_choose_dest geoZero perA ["Hoch-Shanahan"] rngC (by simp)
      (by intro dh _; simp [Person.get_distance, geoZero])).1
      (by intro dh _; simp [Person.get_distance, geoZero])⟩

/-- A one-entry classroom table resolving inside the bounding box. -/
def locDataB : List (String × Loc) := [("S-B", (34.1, -117.71))]

/-- A spawn event for 5 seats in classroom `S-B`. -/
def evB5 : Event := ⟨"S-B", 5⟩

/-- The person spawned from `evB5` under the constant 1/2 stream:
speed `max(0.8 + 1 * 0.5, 0.2) = 1.3`. -/
def perB : Person := ⟨(34.1, -117.71), 13/10, none⟩

theorem locDataB_find : (locDataB.find? (fun kv => decide (kv.1 = evB5.location_string))).map
    (fun kv => kv.2) = some ((34.1 : ℚ), (-117.71 : ℚ)) := by
  simp [locDataB, evB5, List.find?]

theorem locB_not_skipped : ¬ (((34.1 : ℚ), (-117.71 : ℚ)) = ((0 : ℚ), (0 : ℚ)) ∨
    in_bounds ((34.1 : ℚ), (-117.71 : ℚ)) = false) := by
  simp only [in_bounds, BOUNDING_BOX, List.getD, not_or]
  norm_num

theorem evB5_count : (pyInt ((evB5.people : ℚ) * spawnRate 900)).toNat = 2 := by
  have h1 : spawnRate 900 = CONVERSION_RATE := by
    unfold spawnRate
    rw [if_neg (by norm_num)]
  rw [h1]
  have h2 : ((evB5.people : ℤ) : ℚ) * CONVERSION_RATE = ((2 : ℤ) : ℚ) := by
    norm_num [evB5, CONVERSION_RATE]
  rw [h2]
  unfold pyInt
  rw [if_pos (by norm_num), Int.floor_intCast]
  rfl

theorem spawnEventB_eval :
    spawnEvent geoFar argsA locDataB [] 900 evB5 [] rngHalf
      = .ok ([perB, perB], ⟨rngHalf.seq, 2⟩) := by
  simp only [spawnEvent, locDataB_find]
  rw [if_neg locB_not_skipped, evB5_count]
  simp only [spawnOne, pyGauss, RNG.next, rngHalf, argsA, List.isEmpty_nil, if_true,
    List.nil_append]
  norm_num [max_def, perB]

/-- Witness for C7 at a concrete in-bounds spawn event of 5 seats before
17:00 (2/5 conversion): exactly `floor(5 * 2/5) = 2` persons appear. -/
theorem claim_C7_witness :
    (locDataB.find? (fun kv => decide (kv.1 = evB5.location_string))).map (fun kv => kv.2)
        = some ((34.1 : ℚ), (-117.71 : ℚ)) ∧
    ¬ (((34.1 : ℚ), (-117.71 : ℚ)) = ((0 : ℚ), (0 : ℚ)) ∨
        in_bounds ((34.1 : ℚ), (-117.71 : ℚ)) = false) ∧
    spawnEvent geoFar argsA locDataB [] 900 evB5 [] rngHalf
        = .ok ([perB, perB], ⟨rngHalf.seq, 2⟩) ∧
    0 ≤ (evB5.people : ℚ) * spawnRate 900 ∧
    ([perB, perB], (⟨rngHalf.seq, 2⟩ : RNG)).1.length
        = ([] : List Person).length + (⌊(evB5.people : ℚ) * spawnRate 900⌋).toNat := by
  have hnn : 0 ≤ (evB5.people : ℚ) * spawnRate 900 := by
    have h1 : spawnRate 900 = CONVERSION_RATE := by
      unfold spawnRate
      rw [if_neg (by norm_num)]
    rw [h1]
    norm_num [evB5, CONVERSION_RATE]
  exact ⟨locDataB_find, locB_not_skipped, spawnEventB_eval, hnn,
    (claim_C7_spawn_count geoFar argsA locDataB [] 900 evB5 [] rngHalf
      ([perB, perB], ⟨rngHalf.seq, 2⟩) ((34.1 : ℚ), (-117.71 : ℚ)) locDataB_find
      locB_not_skipped spawnEventB_eval).1 hnn⟩

/-- Claim C9: the arrival test is applied to every cataloged facility
regardless of opening hours — a person within 100 meters of a facility
that is closed at the current minute is still taken off the outside
list, and that closed facility's line queue grows. -/
theorem claim_C9_closed_arrival (geo : Geo) (lt : ℕ) (people : List Person)
    (hqs : List (List ℚ × List ℚ)) (r : RNG) (m : ℚ) (k : ℕ) (p : Person)
    (hp : p ∈ people) (hmatch : firstMatch geo p = some k)
    (hclosed : is_open m (DINING_HALLS.getD k ("", ⟨(0, 0), (0, 0), (0, 0), (0, 0)⟩)).2
      = false)
    (hlen : DINING_HALLS.length ≤ hqs.length) :
    (arrivalPhase geo lt people hqs r).1
        = people.filter (fun q => !(firstMatch geo q).isSome) ∧
    p ∉ (arrivalPhase geo lt people hqs r).1 ∧
    (lineAt hqs k).length < (lineAt (arrivalPhase geo lt people hqs r).2.1 k).length := by
  refine ⟨arrivalPhase_outside geo lt people hqs r, ?_, ?_⟩
  · intro hmem
    rw [arrivalPhase_outside geo lt people hqs r] at hmem
    have := (List.mem_filter.mp hmem).2
    rw [hmatch] at this
    simp at this
  · obtain ⟨new, h1, h2, -, -⟩ := arrivalScan_line geo lt people 0 hqs r k hlen
    have hline : lineAt (arrivalPhase geo lt people hqs r).2.1 k = lineAt hqs k ++ new := h1
    rw [hline, List.length_append]
    have hposcount : 0 < people.countP (fun q => decide (firstMatch geo q = some k)) := by
      rw [List.countP_pos_iff]
      exact ⟨p, hp, by simp [hmatch]⟩
    omega

/-- Geometry in which only the first cataloged hall (at its catalog
coordinates) is within 100 meters. -/
def geoNear : Geo :=
  ⟨fun a _ => if a = ((34.10574 : ℚ), (-117.70980 : ℚ)) then 50 else 500,
    fun cur _ _ => cur⟩

theorem geoNear_firstMatch : firstMatch geoNear perA = some 0 := by
  simp only [firstMatch, DINING_HALLS, List.findIdx?, Person.in_dining_hall,
    Person.get_distance, geoNear]
  norm_num

theorem hall0_closed_1200 :
    is_open 1200 (DINING_HALLS.getD 0 ("", ⟨(0, 0), (0, 0), (0, 0), (0, 0)⟩)).2 = false := by
  simp only [DINING_HALLS, List.getD, is_open, Bool.or_eq_false_iff, Bool.and_eq_false_iff,
    decide_eq_false_iff_not, not_le]
  norm_num

/-- Witness for C9: a person 50 m from Hoch-Shanahan at 20:00 (all
facilities closed) still leaves the outside list and joins that closed
hall's line. -/
theorem claim_C9_witness :
    perA ∈ [perA] ∧ firstMatch geoNear perA = some 0 ∧
    is_open 1200 (DINING_HALLS.getD 0 ("", ⟨(0, 0), (0, 0), (0, 0), (0, 0)⟩)).2 = false ∧
    perA ∉ (arrivalPhase geoNear 30 [perA] emptyHallsQs rngC).1 ∧
    (lineAt emptyHallsQs 0).length
      < (lineAt (arrivalPhase geoNear 30 [perA] emptyHallsQs rngC).2.1 0).length := by
  have h := claim_C9_closed_arrival geoNear 30 [perA] emptyHallsQs rngC 1200 0 perA
    (by simp) geoNear_firstMatch hall0_closed_1200 (by simp [emptyHallsQs])
  exact ⟨by simp, geoNear_firstMatch, hall0_closed_1200, h.2.1, h.2.2⟩

theorem arrivalPhase_nil (geo : Geo) (lt : ℕ) (hqs : List (List ℚ × List ℚ)) (r : RNG) :
    arrivalPhase geo lt [] hqs r = ([], hqs, r) := by
  simp [arrivalPhase, arrivalScan, popLoop]

theorem emptyHallsQs_counts :
    emptyHallsQs.map (fun q => (q.1.length, q.2.length))
      = DINING_HALLS.map (fun x => ((0 : ℕ), (0 : ℕ))) := by
  simp [emptyHallsQs, List.map_map]

theorem getD_at_append {α : Type} (l1 : List α) (x : α) (l2 : List α) (d : α) :
    (l1 ++ x :: l2).getD l1.length d = x := by
  induction l1 with
  | nil => rfl
  | cons a as ih => exact ih

theorem logAppend_at_end (log : List (List Snapshot)) (d : ℕ) (h : log.length = d) :
    ∀ snap : Snapshot, logAppend log d snap = some (log ++ [[snap]]) := by
  intro snap
  subst h
  have h1 : (log ++ [[]]).getD log.length ([] : List Snapshot) = [] :=
    getD_at_append log [] [] []
  have h2 : (log ++ [[]]).set log.length [snap] = log ++ [[snap]] :=
    set_at_append log [] [snap] []
  simp only [logAppend, eq_self_iff_true, if_true]
  rw [if_pos (by simp), h1, List.nil_append, h2]

/-- The state a rollover tick resets to, given the pre-rollover state. -/
def rolledState (s : SimState) : SimState :=
  { s with
    current_minute := DAY_START_TIME
    current_day := s.current_day + 1
    outside_people := []
    halls_qs := emptyHallsQs }

/-- The state after a complete quiet rollover tick (no spawn bucket at
the day-start minute): everything reset, one all-zero snapshot logged. -/
def rolledStateLogged (s : SimState) : SimState :=
  { s with
    current_minute := DAY_START_TIME
    current_day := s.current_day + 1
    outside_people := []
    halls_qs := emptyHallsQs
    rng := s.rng
    log := s.log ++ [[(⟨DAY_START_TIME, 0, DINING_HALLS.map (fun _ => ((0 : ℕ), (0 : ℕ)))⟩ : Snapshot)]] }

/-- Claim C2 (amended): a tick whose clock advance reaches
`DAY_END_TIME`, with days remaining and NO schedule bucket at minute
`DAY_START_TIME`, produces a snapshot at minute `DAY_START_TIME` with
outside = 0 and all facility counts 0, and the day index grows by one.
(The no-bucket proviso is needed: a class ending at exactly 07:00 would
spawn people into the rollover snapshot.) -/
theorem claim_C2_amended (geo : Geo) (s : SimState)
    (hroll : DAY_END_TIME ≤ s.current_minute + (s.args.time_interval : ℚ) / 60)
    (hdays : s.current_day + 1 < s.args.days.length)
    (hnospawn : s.end_times.find? (fun kv => decide ((kv.1 : ℚ) = DAY_START_TIME)) = none)
    (hlog : s.log.length = s.current_day + 1) :
    ∃ s1, SimState.iterate geo s = .ok (some s1) ∧
      s1.current_minute = DAY_START_TIME ∧
      s1.current_day = s.current_day + 1 ∧
      s1.log.getD (s.current_day + 1) []
        = [(⟨DAY_START_TIME, 0, DINING_HALLS.map (fun _ => ((0 : ℕ), (0 : ℕ)))⟩ : Snapshot)] := by
  have hbody : tickBody geo (rolledState s)
      (s.current_minute + (s.args.time_interval : ℚ) / 60 - s.current_minute)
      = .ok (some (rolledStateLogged s)) := by
    simp only [rolledState, rolledStateLogged, tickBody, spawnPhase, hnospawn,
      movementLoop_nil, arrivalPhase_nil, servicePhase_empty, mkSnapshot,
      List.length_nil, emptyHallsQs_counts,
      logAppend_at_end s.log (s.current_day + 1) hlog]
  have hiter : SimState.iterate geo s = .ok (some (rolledStateLogged s)) := by
    simp only [SimState.iterate]
    rw [if_pos hroll, if_neg (not_le.mpr hdays)]
    exact hbody
  refine ⟨rolledStateLogged s, hiter, rfl, rfl, ?_⟩
  show (s.log ++
      [[(⟨DAY_START_TIME, 0, DINING_HALLS.map (fun _ => ((0 : ℕ), (0 : ℕ)))⟩ : Snapshot)]]).getD
      (s.current_day + 1) [] = _
  rw [← hlog]
  exact getD_at_append s.log _ [] []

/-- Outside count of the snapshot at day `d`, position `i` of a tick
result (999 marks an impossible shape). -/
def snapOutsideAt (x : Except String (Option SimState)) (d i : ℕ) : ℕ :=
  match x with
  | .ok (some s) => ((s.log.getD d []).getD i ⟨0, 999, []⟩).outside
  | _ => 999

/-- Minute of the snapshot at day `d`, position `i` of a tick result. -/
def snapMinuteAt (x : Except String (Option SimState)) (d i : ℕ) : ℚ :=
  match x with
  | .ok (some s) => ((s.log.getD d []).getD i ⟨-1, 999, []⟩).minute
  | _ => -1

/-- Per-hall (inLine, eating) counts of the snapshot at day `d`,
position `i` of a tick result. -/
def snapHallsAt (x : Except String (Option SimState)) (d i : ℕ) : List (ℕ × ℕ) :=
  match x with
  | .ok (some s) => ((s.log.getD d []).getD i ⟨0, 999, []⟩).halls
  | _ => []

/-- Day index of a tick result. -/
def dayOf (x : Except String (Option SimState)) : ℕ :=
  match x with
  | .ok (some s) => s.current_day
  | _ => 999

/-- Stream cursor of a tick result: how many primitive draws have been
consumed in total. -/
def rngIdxOf (x : Except String (Option SimState)) : ℕ :=
  match x with
  | .ok (some s) => s.rng.idx
  | _ => 999

/-- Under `geoFar` every hall is 500 m away: nobody ever arrives. -/
theorem firstMatch_geoFar (p : Person) : firstMatch geoFar p = none := by
  simp only [firstMatch, DINING_HALLS, List.findIdx?, Person.in_dining_hall,
    Person.get_distance, geoFar, decide_eq_true_eq]
  norm_num

/-- Under `geoFar` a movement step leaves every person unchanged. -/
theorem movePerson_geoFar (ti : ℕ) (p : Person) : movePerson geoFar ti p = p := by
  cases hd : p.destination with
  | none => simp [movePerson, hd]
  | some d =>
    simp only [movePerson, hd, geoFar]
    rw [← hd]

theorem arrivalPhase_geoFar (lt : ℕ) (people : List Person)
    (hqs : List (List ℚ × List ℚ)) (r : RNG) :
    arrivalPhase geoFar lt people hqs r = (people, hqs, r) := by
  induction people with
  | nil => exact arrivalPhase_nil geoFar lt hqs r
  | cons p ps ih =>
    have h1 : (arrivalPhase geoFar lt (p :: ps) hqs r).1 = p :: ps := by
      rw [arrivalPhase_outside]
      have hall : ∀ q ∈ p :: ps, (fun q => !(firstMatch geoFar q).isSome) q = true := by
        intro q _
        simp [firstMatch_geoFar]
      exact List.filter_eq_self.mpr hall
    have h2 : arrivalScan geoFar lt (p :: ps) 0 hqs r = ([], hqs, r) := by
      clear h1 ih
      suffices h : ∀ (l : List Person) (i : ℕ), arrivalScan geoFar lt l i hqs r = ([], hqs, r) by
        exact h (p :: ps) 0
      intro l
      induction l with
      | nil => intro i; rfl
      | cons q qs ihq =>
        intro i
        rw [arrivalScan_cons_none geoFar lt q qs i hqs r (firstMatch_geoFar q), ihq]
    show (let scan := arrivalScan geoFar lt (p :: ps) 0 hqs r
      (popLoop (p :: ps) scan.1 0, scan.2.1, scan.2.2)) = _
    rw [h2]
    rfl

theorem openHallNames_420 : openHallNames DAY_START_TIME = ["Hoch-Shanahan"] := by
  simp only [openHallNames, DINING_HALLS, List.filter, is_open, DAY_START_TIME,
    decide_eq_true_eq]
  norm_num

theorem openHallNames_900 : openHallNames 900 = [] := by
  simp only [openHallNames, DINING_HALLS, List.filter, is_open, decide_eq_true_eq]
  norm_num

theorem openHallNames_1200 : openHallNames 1200 = [] := by
  simp only [openHallNames, DINING_HALLS, List.filter, is_open, decide_eq_true_eq]
  norm_num

/-- Pre-tick state for the despawn counterexample: 20:00 next minute
(every facility closed, dinner period), two destination-less persons
outside, constant 3/10 stream. -/
def stC3 : SimState :=
  { end_times := [], location_data := [], args := argsA, current_minute := 1199,
    current_day := 0, outside_people := [perA, perA], halls_qs := emptyHallsQs,
    rng := rngC, log := [] }

theorem stC3_despawn :
    despawnSpec geoFar 60 [perA, perA] rngC = ([perA], ⟨rngC.seq, 1⟩) := by
  norm_num [despawnSpec, perA, RNG.next, rngC, CONVERSION_RATE]

theorem stC3_movement :
    movementLoop geoFar [] 60 [perA, perA] 0 rngC = .ok ([perA], ⟨rngC.seq, 1⟩) := by
  have h := movementLoop_append geoFar 60 2 [perA, perA] [] rngC (by norm_num)
  simp only [List.nil_append, List.length_nil] at h
  rw [h, stC3_despawn]

theorem stC3_counts :
    outsideCountOf (SimState.iterate geoFar stC3) = 1 ∧
    rngIdxOf (SimState.iterate geoFar stC3) = 1 := by
  have hm1 : stC3.current_minute + (stC3.args.time_interval : ℚ) / 60 = 1200 := by
    norm_num [stC3, argsA]
  have hdelta2 : (1200 : ℚ) - stC3.current_minute = 1 := by
    norm_num [stC3]
  have hiter1 : SimState.iterate geoFar stC3
      = tickBody geoFar { stC3 with current_minute := 1200 } 1 := by
    simp only [SimState.iterate]
    rw [hm1]
    rw [if_neg (by norm_num [DAY_END_TIME]), hdelta2]
  rw [hiter1]
  constructor
  · simp only [tickBody, stC3, argsA, spawnPhase, List.find?, openHallNames_1200,
      stC3_movement, arrivalPhase_geoFar, servicePhase_empty, mkSnapshot,
      logAppend_at_end ([] : List (List Snapshot)) 0 rfl, outsideCountOf]
    rfl
  · simp only [tickBody, stC3, argsA, spawnPhase, List.find?, openHallNames_1200,
      stC3_movement, arrivalPhase_geoFar, servicePhase_empty, mkSnapshot,
      logAppend_at_end ([] : List (List Snapshot)) 0 rfl, rngIdxOf]

/-- Claim C3 (counterexample): at a tick reaching 20:00 (dinner period,
every hall closed) with two destination-less persons outside and every
stream draw equal to 3/10 — below BOTH conversion rates, so under the
claim both persons receive a draw and both draws succeed, leaving
outside = 0 — the code removes only the first person, skips the second
entirely, and consumes a single draw: outside = 1 and exactly one
stream element used. -/
theorem claim_C3_counterexample :
    (∀ p ∈ stC3.outside_people, p.destination = none) ∧
    openHallNames (stC3.current_minute + (stC3.args.time_interval : ℚ) / 60) = [] ∧
    (17 * 60 : ℚ) ≤ stC3.current_minute + (stC3.args.time_interval : ℚ) / 60 ∧
    (∀ n, stC3.rng.seq n = 3 / 10) ∧ stC3.rng.idx = 0 ∧
    (3 / 10 : ℚ) < CONVERSION_RATE ∧ (3 / 10 : ℚ) < DINNER_CONVERSION_RATE ∧
    stC3.outside_people.length = 2 ∧
    outsideCountOf (SimState.iterate geoFar stC3) = 1 ∧
    rngIdxOf (SimState.iterate geoFar stC3) = 1 := by
  have hm1 : stC3.current_minute + (stC3.args.time_interval : ℚ) / 60 = 1200 := by
    norm_num [stC3, argsA]
  refine ⟨?_, ?_, ?_, ?_, rfl, ?_, ?_, rfl, stC3_counts.1, stC3_counts.2⟩
  · intro p hp
    rcases List.mem_cons.mp hp with h | h
    · rw [h]; rfl
    · rcases List.mem_cons.mp h with h1 | h1
      · rw [h1]; rfl
      · simp at h1
  · rw [hm1]; exact openHallNames_1200
  · rw [hm1]; norm_num
  · intro n; rfl
  · norm_num [CONVERSION_RATE]
  · norm_num [DINNER_CONVERSION_RATE]

/-- The person spawned at 07:00 under the constant 1/2 stream:
destination drawn from the single open hall. -/
def perD : Person := ⟨(34.1, -117.71), 13/10, some "Hoch-Shanahan"⟩

theorem choose_dest_single (p : Person) (r : RNG) :
    Person.choose_dest geoFar p ["Hoch-Shanahan"] r
      = .ok ({ p with destination := some "Hoch-Shanahan" }, ⟨r.seq, r.idx + 1⟩) := by
  have hb : ∀ x : ℚ, bisectRight [(0 : ℚ) + 500] x 0 0 = 0 := by
    intro x
    rw [bisectRight]
    simp
  simp only [Person.choose_dest, List.isEmpty_cons, Bool.false_eq_true, if_false,
    List.map_cons, List.map_nil, Person.get_distance, geoFar, pyChoices, cumSum,
    List.getLastD_cons, List.getLastD_nil, List.length_cons, List.length_nil,
    RNG.next, hb]
  rw [if_neg (by norm_num)]
  simp

theorem evB5_count420 : (pyInt ((evB5.people : ℚ) * spawnRate DAY_START_TIME)).toNat = 2 := by
  have h1 : spawnRate DAY_START_TIME = CONVERSION_RATE := by
    unfold spawnRate
    rw [if_neg (by norm_num [DAY_START_TIME])]
  rw [h1]
  have h2 : ((evB5.people : ℤ) : ℚ) * CONVERSION_RATE = ((2 : ℤ) : ℚ) := by
    norm_num [evB5, CONVERSION_RATE]
  rw [h2]
  unfold pyInt
  rw [if_pos (by norm_num), Int.floor_intCast]
  rfl

theorem spawnEventD_eval :
    spawnEvent geoFar argsA locDataB ["Hoch-Shanahan"] DAY_START_TIME evB5 [] rngHalf
      = .ok ([perD, perD], ⟨rngHalf.seq, 4⟩) := by
  simp only [spawnEvent, locDataB_find]
  rw [if_neg locB_not_skipped, evB5_count420]
  simp only [spawnOne, pyGauss, RNG.next, List.isEmpty_cons, Bool.false_eq_true, if_false,
    choose_dest_single, List.nil_append]
  norm_num [max_def, perD, rngHalf, argsA]

theorem find420 : (([((420 : ℕ), [evB5])] : EndTimes).find?
    (fun kv => decide ((kv.1 : ℚ) = DAY_START_TIME))) = some (420, [evB5]) := by
  have hc : decide (((420 : ℕ) : ℚ) = DAY_START_TIME) = true := by
    rw [decide_eq_true_eq]
    norm_num [DAY_START_TIME]
  rw [List.find?]
  rw [hc]

theorem stD_movement (r : RNG) :
    movementLoop geoFar ["Hoch-Shanahan"] 60 [perD, perD] 0 r = .ok ([perD, perD], r) := by
  have hset0 : ([perD, perD].set 0 (movePerson geoFar 60 perD)) = [perD, perD] := by
    rw [movePerson_geoFar]; simp
  have hset1 : ([perD, perD].set 1 (movePerson geoFar 60 perD)) = [perD, perD] := by
    rw [movePerson_geoFar]; simp
  rw [movementLoop, dif_pos (by norm_num)]
  show movementLoop geoFar ["Hoch-Shanahan"] 60
      ([perD, perD].set 0 (movePerson geoFar 60 perD)) (0 + 1) r = _
  rw [hset0, movementLoop, dif_pos (by norm_num)]
  show movementLoop geoFar ["Hoch-Shanahan"] 60
      ([perD, perD].set 1 (movePerson geoFar 60 perD)) (0 + 1 + 1) r = _
  rw [hset1, movementLoop, dif_neg (by norm_num)]

/-- Pre-rollover state whose schedule has a class ending exactly at
07:00 (minute 420 bucket). -/
def stD : SimState :=
  { end_times := [(420, [evB5])], location_data := locDataB, args := argsA,
    current_minute := 1319, current_day := 0, outside_people := [],
    halls_qs := emptyHallsQs, rng := rngHalf, log := [[]] }

theorem argsA_ti : argsA.time_interval = 60 := rfl

theorem stD_iterate : SimState.iterate geoFar stD
    = .ok (some { stD with
        current_minute := DAY_START_TIME
        current_day := 1
        outside_people := [perD, perD]
        halls_qs := emptyHallsQs
        rng := ⟨rngHalf.seq, 4⟩
        log := [[], [(⟨DAY_START_TIME, 2,
          DINING_HALLS.map (fun _ => ((0 : ℕ), (0 : ℕ)))⟩ : Snapshot)]] }) := by
  simp only [SimState.iterate]
  rw [if_pos (by norm_num [stD, argsA, DAY_END_TIME]),
    if_neg (by norm_num [stD, argsA])]
  simp only [tickBody, stD, argsA_ti, openHallNames_420, spawnPhase, find420, spawnEvents,
    spawnEventD_eval, stD_movement, arrivalPhase_geoFar, servicePhase_empty, mkSnapshot,
    emptyHallsQs_counts, List.length_cons, List.length_nil,
    logAppend_at_end ([[]] : List (List Snapshot)) 1 rfl]
  norm_num

/-- Claim C2 (counterexample): a rollover tick whose schedule has a
class ending at exactly 07:00 (minute `DAY_START_TIME`).  The rollover
resets minute and day as claimed, but the spawning step fires before the
snapshot is taken: the logged snapshot shows outside = 2, not 0. -/
theorem claim_C2_counterexample :
    DAY_END_TIME ≤ stD.current_minute + (stD.args.time_interval : ℚ) / 60 ∧
    stD.current_day + 1 < stD.args.days.length ∧
    snapMinuteAt (SimState.iterate geoFar stD) 1 0 = DAY_START_TIME ∧
    dayOf (SimState.iterate geoFar stD) = stD.current_day + 1 ∧
    snapOutsideAt (SimState.iterate geoFar stD) 1 0 = 2 ∧
    ¬ snapOutsideAt (SimState.iterate geoFar stD) 1 0 = 0 := by
  refine ⟨by norm_num [stD, argsA, DAY_END_TIME], by norm_num [stD, argsA], ?_, ?_, ?_, ?_⟩
  · rw [stD_iterate]; rfl
  · rw [stD_iterate]; rfl
  · rw [stD_iterate]; rfl
  · rw [stD_iterate]
    intro h
    exact absurd h (by norm_num [snapOutsideAt])

/-- Pre-rollover state with no schedule bucket at the day-start minute. -/
def stW : SimState :=
  { end_times := [], location_data := [], args := argsA, current_minute := 1319,
    current_day := 0, outside_people := [], halls_qs := emptyHallsQs, rng := rngC,
    log := [[]] }

/-- Witness for the amended C2 at a concrete quiet rollover tick. -/
theorem claim_C2_witness :
    DAY_END_TIME ≤ stW.current_minute + (stW.args.time_interval : ℚ) / 60 ∧
    stW.current_day + 1 < stW.args.days.length ∧
    stW.end_times.find? (fun kv => decide ((kv.1 : ℚ) = DAY_START_TIME)) = none ∧
    stW.log.length = stW.current_day + 1 ∧
    ∃ s1, SimState.iterate geoFar stW = .ok (some s1) ∧
      s1.current_minute = DAY_START_TIME ∧ s1.current_day = stW.current_day + 1 ∧
      s1.log.getD (stW.current_day + 1) []
        = [(⟨DAY_START_TIME, 0, DINING_HALLS.map (fun _ => ((0 : ℕ), (0 : ℕ)))⟩ : Snapshot)] := by
  refine ⟨by norm_num [stW, argsA, DAY_END_TIME], by norm_num [stW, argsA], rfl, rfl, ?_⟩
  exact claim_C2_amended geoFar stW (by norm_num [stW, argsA, DAY_END_TIME])
    (by norm_num [stW, argsA]) rfl rfl

/-- A timing that meets ONLY on Tuesday, ending at 15:00. -/
def tB : Timing := ⟨["Tuesday"], "13:00:00", "15:00:00", "S", "B"⟩

/-- A 5-seat course holding only the Tuesday timing `tB`. -/
def cB : Course := ⟨5, [tB]⟩

/-- A schedule consisting of the single Tuesday-only course. -/
def schedC1 : List Course := [cB]

/-- Mid-simulation state one tick before 15:00 on simulated day 0
(weekday 'M'), with the `end_times` dict built from `schedC1`. -/
def stC1 : SimState :=
  { end_times := [(900, [evB5])], location_data := locDataB, args := argsA,
    current_minute := 899, current_day := 0, outside_people := [],
    halls_qs := emptyHallsQs, rng := rngHalf, log := [] }

theorem find900 : (([((900 : ℕ), [evB5])] : EndTimes).find?
    (fun kv => decide ((kv.1 : ℚ) = 900))) = some (900, [evB5]) := by
  have hc : decide (((900 : ℕ) : ℚ) = 900) = true := by
    rw [decide_eq_true_eq]
    norm_num
  rw [List.find?, hc]

theorem stC1_despawn :
    despawnSpec geoFar 60 [perB, perB] ⟨rngHalf.seq, 2⟩
      = ([perB, perB], ⟨rngHalf.seq, 4⟩) := by
  norm_num [despawnSpec, perB, RNG.next, rngHalf, CONVERSION_RATE]

theorem stC1_movement :
    movementLoop geoFar [] 60 [perB, perB] 0 ⟨rngHalf.seq, 2⟩
      = .ok ([perB, perB], ⟨rngHalf.seq, 4⟩) := by
  have h := movementLoop_append geoFar 60 2 [perB, perB] [] ⟨rngHalf.seq, 2⟩ (by norm_num)
  simp only [List.nil_append, List.length_nil] at h
  rw [h, stC1_despawn]

theorem stC1_counts : snapOutsideAt (SimState.iterate geoFar stC1) 0 0 = 2 := by
  have hm1 : stC1.current_minute + (stC1.args.time_interval : ℚ) / 60 = 900 := by
    norm_num [stC1, argsA]
  have hdelta2 : (900 : ℚ) - stC1.current_minute = 1 := by
    norm_num [stC1]
  have hiter1 : SimState.iterate geoFar stC1
      = tickBody geoFar { stC1 with current_minute := 900 } 1 := by
    simp only [SimState.iterate]
    rw [hm1]
    rw [if_neg (by norm_num [DAY_END_TIME]), hdelta2]
  rw [hiter1]
  simp only [tickBody, stC1, argsA_ti, openHallNames_900, spawnPhase, find900,
    spawnEvents, spawnEventB_eval, stC1_movement, arrivalPhase_geoFar, servicePhase_empty,
    mkSnapshot, emptyHallsQs_counts, List.length_cons, List.length_nil,
    logAppend_at_end ([] : List (List Snapshot)) 0 rfl, snapOutsideAt]
  all_goals rfl

/-- Claim C1: the `end_times` build flattens the per-weekday schedule
into one minute-keyed dict, and `iterate` never consults the simulated
weekday.  A course meeting ONLY on Tuesday is filed under plain minute
900, and on simulated day 0 — weekday 'M' — the 15:00 tick spawns
`floor(5 * 2/5) = 2` persons from it. -/
theorem claim_C1_weekday_spawn :
    buildEndTimes schedC1 = some [(900, [evB5])] ∧
    (∀ c ∈ schedC1, ∀ t ∈ c.timing, t.days = ["Tuesday"]) ∧
    argsA.days = ['M', 'T'] ∧ stC1.current_day = 0 ∧
    stC1.end_times = [(900, [evB5])] ∧ stC1.args = argsA ∧
    snapOutsideAt (SimState.iterate geoFar stC1) 0 0 = 2 :=
  ⟨by decide, by decide, rfl, rfl, rfl, rfl, stC1_counts⟩
